import Mathlib

/-!
Shallow embedding of the script-gateway core (dyyz1993/script-gateway) and
proofs about it.

The embedded components are:
* the argument marshaler `build_cli_args` (src/services/executor.py),
* the process executor `_execute_script` together with the
  `running_processes` registry (src/services/executor.py),
* the per-script dependency cache manager `ScriptDepsManager`
  (src/utils/deps.py), including a full executable MD5 used by
  `calculate_deps_hash`,
* the registrar scan step `parse_and_register` (src/services/scanner.py).

External effects (subprocess spawning, the run ledger, the sqlite catalog,
notifications, filesystem writes) are modeled as explicit event traces and
explicit state; the outcome of each subprocess wait is an oracle argument,
so a single Lean function covers every branch the Python code can take.
Python float values are kept abstract: the whole marshaler section is
parameterized by a type `F` of float values together with the parsing and
printing functions, so every theorem below holds for any float semantics.
-/

namespace ScriptGateway

/-- Values of the HTTP parameter map as the executor sees them: JSON-ish
scalars (strings, integers, booleans) plus Python `None` (which
`dict.get` also returns for an absent key). -/
inductive Value where
  | str (s : String)
  | int (n : Int)
  | bool (b : Bool)
  | none
deriving DecidableEq, Repr

/-- One schema entry, mirroring the Python dict read by `build_cli_args`
via `meta.get('flag')`, `meta.get('type', 'str')`,
`meta.get('required', False)`. A missing key is `Option.none`. -/
structure ParamMeta where
  flag : Option String := Option.none
  typ : Option String := Option.none
  required : Bool := false
deriving DecidableEq, Repr

/-- Errors raised inside `build_cli_args`: the explicit
`raise ValueError(f"missing required param: {name}")`, and the
`ValueError`s escaping from `int(val)` / `float(val)`. -/
inductive MarshalErr where
  | missingParam (name : String)
  | badInt (raw : Value)
  | badFloat (raw : Value)
deriving DecidableEq, Repr

/-- Characters stripped by Python's default `str.strip()` (the ASCII
whitespace; the inputs considered stay in ASCII). -/
def isPyWs (c : Char) : Bool :=
  c = ' ' ∨ c = '\t' ∨ c = '\n' ∨ c = '\r' ∨ c.toNat = 11 ∨ c.toNat = 12

/-- Python `s.strip()`, as a character list. -/
def pyStrip (s : String) : List Char :=
  ((s.data.dropWhile isPyWs).reverse.dropWhile isPyWs).reverse

/-- Python `str.lower()` on one character (ASCII range; no character used
anywhere in this development lowercases across the ASCII boundary). -/
def pyCharLower (c : Char) : Char :=
  if c.toNat ≥ 65 ∧ c.toNat ≤ 90 then Char.ofNat (c.toNat + 32) else c

/-- Python `s.lower()`. -/
def pyLower (s : String) : String :=
  ⟨s.data.map pyCharLower⟩

/-- Python string slicing `s[:n]` (by code points). -/
def strTake (s : String) (n : Nat) : String :=
  ⟨s.data.take n⟩

/-- Python slicing `s[n:]`. -/
def strDrop (s : String) (n : Nat) : String :=
  ⟨s.data.drop n⟩

/-- Does `hay` start with `needle`? -/
def listStarts : List Char → List Char → Bool
  | [], _ => true
  | _ :: _, [] => false
  | n :: ns, h :: hs => n = h && listStarts ns hs

/-- Python `s.startswith(pre)`. -/
def strStarts (s pre : String) : Bool :=
  listStarts pre.data s.data

/-- Python `s.endswith(suf)`. -/
def strEnds (s suf : String) : Bool :=
  decide (suf.data = s.data.drop (s.data.length - suf.data.length))

/-- Parse the digits of a Python integer literal after the sign, including
the single-underscore digit separators Python's `int()` accepts. -/
def digitsGo (acc : Nat) : List Char → Option Nat
  | [] => some acc
  | '_' :: c :: r =>
      if c.isDigit then digitsGo (acc * 10 + (c.toNat - 48)) r else Option.none
  | ['_'] => Option.none
  | c :: r =>
      if c.isDigit then digitsGo (acc * 10 + (c.toNat - 48)) r else Option.none

/-- Digits part of `int()`: at least one leading digit. -/
def digitsParse : List Char → Option Nat
  | c :: r => if c.isDigit then digitsGo (c.toNat - 48) r else Option.none
  | [] => Option.none

/-- Python `int(s)` on a string: optional surrounding whitespace, optional
sign, decimal digits (with underscore separators). -/
def pyIntOfStr (s : String) : Option Int :=
  match pyStrip s with
  | '+' :: r => (digitsParse r).map (fun n => (n : Int))
  | '-' :: r => (digitsParse r).map (fun n => -(n : Int))
  | r => (digitsParse r).map (fun n => (n : Int))

/-- Python `int(val)` on the value universe: identity on ints, `True`/`False`
become 1/0, strings are parsed, `int(None)` raises. -/
def pyIntParse : Value → Option Int
  | .int n => some n
  | .bool b => some (if b then 1 else 0)
  | .str s => pyIntOfStr s
  | .none => Option.none

/-- Python truthiness of a non-string value (`1 if val else 0`). The string
case never reaches this in `build_cli_args` (handled separately). -/
def truthyV : Value → Bool
  | .int n => n ≠ 0
  | .bool b => b
  | .str s => s ≠ ""
  | .none => false

/-- Python `str(val)` on the value universe (used for the pass-through
types str/file/json/url). -/
def pyStrValue : Value → String
  | .str s => s
  | .int n => toString n
  | .bool b => if b then "True" else "False"
  | .none => "None"

/-- The bool branch's string test
`val.lower() in ['true', '1', 'yes']`. -/
def pyTruthyTok (s : String) : Bool :=
  let l := pyLower s
  l = "true" || l = "1" || l = "yes"

/-- Effective (post-coercion) parameter value stored in the `effective`
map: a Python int (also the canonical 1/0 the bool branch produces), an
abstract float, or the untouched original value. -/
inductive EffVal (F : Type) where
  | int (n : Int)
  | flt (f : F)
  | v (val : Value)
deriving DecidableEq, Repr

/-- `http_params.get(name)`: first binding wins (Python dict keys are
unique), absent key gives Python `None`. -/
def lookupV (params : List (String × Value)) (name : String) : Value :=
  match params.find? (fun p => p.1 = name) with
  | some p => p.2
  | Option.none => Value.none

section Marshal

variable {F : Type} (floatParse : Value → Option F) (floatRepr : F → String)

/-- Body of the `build_cli_args` loop for one declared parameter whose
value is present: the `if typ == ...` coercion chain, returning the argv
token `str(val)` and the effective value, or the `ValueError` it raises. -/
def procOne (meta : ParamMeta) (val : Value) :
    Except MarshalErr (String × EffVal F) :=
  let typ := meta.typ.getD "str"
  if typ = "int" then
    match pyIntParse val with
    | some n => .ok (toString n, .int n)
    | Option.none => .error (.badInt val)
  else if typ = "float" then
    match floatParse val with
    | some f => .ok (floatRepr f, .flt f)
    | Option.none => .error (.badFloat val)
  else if typ = "bool" then
    let b := match val with
      | .str s => pyTruthyTok s
      | v => truthyV v
    let n : Int := if b then 1 else 0
    .ok (toString n, .int n)
  else
    .ok (pyStrValue val, .v val)

/-- `build_cli_args(args_schema, http_params)`: iterate the schema in
declaration order; an absent (or `None`) value raises for a required
parameter and is skipped for an optional one; a present value is coerced
by type and contributes `[flag, str(val)]` to argv (the flag token is
`meta.get('flag')`, hence an `Option`). -/
def build_cli_args (schema : List (String × ParamMeta))
    (params : List (String × Value)) :
    Except MarshalErr (List (Option String) × List (String × EffVal F)) :=
  match schema with
  | [] => .ok ([], [])
  | (name, meta) :: rest =>
    match lookupV params name with
    | .none =>
        if meta.required then .error (.missingParam name)
        else build_cli_args rest params
    | val => do
        let (tok, ev) ← procOne floatParse floatRepr meta val
        let (cli, eff) ← build_cli_args rest params
        return (meta.flag :: some tok :: cli, (name, ev) :: eff)

end Marshal

/-- Keep every other element starting with the first: the flag positions
of the flat argv `[flag1, v1, flag2, v2, ...]`. -/
def evens {α : Type} : List α → List α
  | [] => []
  | [a] => [a]
  | a :: _ :: r => a :: evens r

/-- Whether `build_cli_args` will see a present value for `name`. -/
def presentIn (params : List (String × Value)) (name : String) : Bool :=
  match lookupV params name with
  | .none => false
  | _ => true

/-! ## Process executor (`_execute_script`, src/services/executor.py) -/

/-- The script row fields `_execute_script` reads. -/
structure Script where
  id : Int
  filename : String
  scriptType : String
  notifyEnabled : Option Int := Option.none
deriving DecidableEq, Repr

/-- Outcome of `proc.communicate(timeout=...)` on a spawned child:
a normal completion with captured stdout/stderr bytes and the return
code, a `subprocess.TimeoutExpired`, or some other exception. Stdout and
stderr byte strings are kept abstract (type `B`). -/
inductive RunOutcome (B : Type) where
  | completed (out err : B) (rc : Int)
  | timeout
  | commFail (msg : String)
deriving DecidableEq, Repr

/-- Outcome of the whole `subprocess.Popen` attempt: the constructor
raised, or a child was spawned and then waited on. -/
inductive SpawnOutcome (B : Type) where
  | spawnFail (msg : String)
  | spawned (r : RunOutcome B)
deriving DecidableEq, Repr

/-- Observable side effects of one `_execute_script` call, in program
order: process spawn, `running_processes` insertion/removal,
`save_binary_output`, `update_last_run`, `insert_run` (the run-ledger
write, carrying duration, ledger status, stdout preview, stderr text and
artifact url), `send_notify`, and `proc.kill()` (which the function never
emits — `terminate_script` does). -/
inductive Ev where
  | spawn (cmd : List (Option String))
  | regAdd (id : Int)
  | regDel (id : Int)
  | saveOutput (size : Nat)
  | updateLastRun (id : Int) (st : Nat)
  | insertRun (id : Int) (durationMs : Nat) (status : Nat)
      (preview stderr outUrl : Option String)
  | notify (title body : String)
  | kill (id : Int)
deriving DecidableEq, Repr

/-- The `running_processes` registry: script id to process handle (we keep
the script name the handle is stored with). -/
def Registry := List (Int × String)

instance : DecidableEq Registry := by
  unfold Registry; infer_instance

/-- `running_processes[script_id] = (proc, script_name)`. -/
def regSet (reg : Registry) (id : Int) (name : String) : Registry :=
  (id, name) :: List.filter (fun p => p.1 ≠ id) reg

/-- `if script_id in running_processes: del running_processes[script_id]`. -/
def regDrop (reg : Registry) (id : Int) : Registry :=
  List.filter (fun p => p.1 ≠ id) reg

/-- `script_id in running_processes`. -/
def regHas (reg : Registry) (id : Int) : Bool :=
  List.any reg (fun p => p.1 = id)

/-- `get_running_scripts()`. -/
def get_running_scripts (reg : Registry) : List Int :=
  List.map Prod.fst reg

/-- Classified result value returned by `_execute_script` (the Python
dicts, one constructor per shape): structured JSON success, binary
artifact success, and the error dict used for non-zero exit, timeout and
internal exceptions (`code` is 500, or 504 for timeout). -/
inductive ExecResult (J : Type) where
  | jsonOk (scriptId : Int) (durationMs : Nat) (data : J) (runId : Int)
  | fileOk (scriptId : Int) (durationMs : Nat) (url fname : String)
      (size : Nat) (runId : Int)
  | errRes (scriptId : Int) (durationMs : Nat) (stderr : String)
      (code : Nat) (runId : Int)
deriving DecidableEq, Repr

/-- The `"status"` field of the returned dict. -/
def ExecResult.statusStr {J : Type} : ExecResult J → String
  | .jsonOk .. => "success"
  | .fileOk .. => "success"
  | .errRes .. => "error"

section Executor

variable {F : Type} (floatParse : Value → Option F) (floatRepr : F → String)
variable {B J : Type}
  (decodeParse : B → Option (String × J))
  (decodeErrStr : B → String)
  (blen : B → Nat)

/-- The `send_notify` calls guarded by `script.get('notify_enabled') == 1`. -/
def notifyEvs (sc : Script) (title body : String) : List Ev :=
  if sc.notifyEnabled = some 1 then [.notify title body] else []

/-- Shallow embedding of `_execute_script`. Inputs beyond the script,
schema and parameters are the oracles for everything the environment
decides: the spawn/communicate outcome, the measured duration, the ledger
row id `insert_run` returns, and the artifact url/filename
`save_binary_output` would produce. Returns the raised-or-returned
result, the final `running_processes` registry, and the event trace.
`decodeParse` abstracts `out.decode('utf-8')` followed by `json.loads`
(`none` = either step threw, i.e. the binary-artifact branch);
`decodeErrStr` abstracts `err.decode('utf-8', errors='ignore')`.
The environment-variable composition (PYTHONPATH / SenseVoiceSmall
special case) has no bearing on any event we track and is not modeled. -/
def execute_script (pyDir jsDir : String) (sc : Script)
    (schema : List (String × ParamMeta)) (params : List (String × Value))
    (outcome : SpawnOutcome B) (durMs : Nat) (runId : Int)
    (artUrl artName : String) (reg : Registry) :
    Except MarshalErr (ExecResult J) × Registry × List Ev :=
  match build_cli_args floatParse floatRepr schema params with
  | .error e => (.error e, reg, [])
  | .ok (cli, _eff) =>
    let scriptPath :=
      if sc.scriptType = "python" then pyDir ++ "/" ++ sc.filename
      else jsDir ++ "/" ++ sc.filename
    let cmd : List (Option String) :=
      if sc.scriptType = "python" then some "python3" :: some scriptPath :: cli
      else some "node" :: some scriptPath :: cli
    match outcome with
    | .spawnFail msg =>
        (.ok (.errRes sc.id durMs msg 500 runId),
         regDrop reg sc.id,
         [.updateLastRun sc.id 2,
          .insertRun sc.id durMs 2 Option.none (some msg) Option.none] ++
          notifyEvs sc ("【失败】" ++ sc.filename) msg)
    | .spawned r =>
      let reg1 := regSet reg sc.id sc.filename
      let reg2 := regDrop reg1 sc.id
      let pre : List Ev := [.spawn cmd, .regAdd sc.id, .regDel sc.id]
      match r with
      | .completed out err rc =>
        if rc = 0 then
          match decodeParse out with
          | some (text, data) =>
              (.ok (.jsonOk sc.id durMs data runId), reg2,
               pre ++ [.updateLastRun sc.id 1,
                 .insertRun sc.id durMs 1 (some (strTake text 1000))
                   Option.none Option.none] ++
                 notifyEvs sc ("【成功】" ++ sc.filename) "执行完毕")
          | Option.none =>
              (.ok (.fileOk sc.id durMs artUrl artName (blen out) runId), reg2,
               pre ++ [.saveOutput (blen out),
                 .updateLastRun sc.id 1,
                 .insertRun sc.id durMs 1 Option.none Option.none
                   (some artUrl)] ++
                 notifyEvs sc ("【成功】" ++ sc.filename) "执行完毕")
        else
          let stderrText := decodeErrStr err
          (.ok (.errRes sc.id durMs stderrText 500 runId), reg2,
           pre ++ [.updateLastRun sc.id 2,
             .insertRun sc.id durMs 2 Option.none (some stderrText)
               Option.none] ++
             notifyEvs sc ("【失败】" ++ sc.filename)
               (if stderrText = "" then str_exec_failed else stderrText))
      | .timeout =>
          (.ok (.errRes sc.id durMs "timeout" 504 runId), reg2,
           pre ++ [.updateLastRun sc.id 2,
             .insertRun sc.id durMs 3 Option.none (some "timeout")
               Option.none] ++
             notifyEvs sc ("【失败】" ++ sc.filename) "timeout")
      | .commFail msg =>
          (.ok (.errRes sc.id durMs msg 500 runId), reg2,
           pre ++ [.updateLastRun sc.id 2,
             .insertRun sc.id durMs 2 Option.none (some msg) Option.none] ++
             notifyEvs sc ("【失败】" ++ sc.filename) msg)
where
  /-- The literal fallback body `"执行失败"` of `stderr_text or "执行失败"`. -/
  str_exec_failed : String := "执行失败"

end Executor

/-- `terminate_script(script_id)`: look the handle up, kill, wait up to the
grace period; the registry entry is removed only when the kill+wait
succeeds (`killOk`). -/
def terminate_script (reg : Registry) (id : Int) (killOk : Bool)
    (excMsg : String) : (Bool × String) × Registry × List Ev :=
  if regHas reg id then
    if killOk then
      ((true, "脚本已中止"), regDrop reg id, [.kill id])
    else
      ((false, excMsg), reg, [.kill id])
  else
    ((false, "脚本未在运行中"), reg, [])

/-! ## Dependency cache manager (`ScriptDepsManager`, src/utils/deps.py) -/

/-- One dependency entry, the `{'name': ..., 'version': ...}` dicts built
by `parse_requirements_text` / `parse_package_json`. -/
structure Dep where
  name : String
  version : String
deriving DecidableEq, Repr

/-- Python's string `<=`: lexicographic by code point. -/
def listCharLe : List Char → List Char → Bool
  | [], _ => true
  | _ :: _, [] => false
  | a :: as, b :: bs =>
      if a = b then listCharLe as bs else decide (a.toNat < b.toNat)

/-- The sort key order of `sorted(deps_list, key=lambda x: x['name'])`. -/
def depNameLe (a b : Dep) : Prop :=
  listCharLe a.name.data b.name.data = true

instance : DecidableRel depNameLe := fun a b => by
  unfold depNameLe; infer_instance

/-- `sorted(deps_list, key=lambda x: x['name'])`: Python's stable sort by
name, embedded as the (equally stable) insertion sort. -/
def sortDeps (l : List Dep) : List Dep :=
  List.insertionSort depNameLe l

/-- Four lowercase hex digits, as Python's `\uXXXX` escapes print them. -/
def hex4 (n : Nat) : String :=
  let d := fun (k : Nat) => String.singleton (Nat.digitChar (k % 16))
  d (n / 4096) ++ d (n / 256) ++ d (n / 16) ++ d n

/-- Escape one character the way `json.dumps` (default `ensure_ascii=True`)
does: printable ASCII except quote and backslash passes through, the short
escapes for the usual control characters, `\uXXXX` (with surrogate pairs
above U+FFFF) for everything else. -/
def jsonEscapeChar (c : Char) : String :=
  if c = '"' then "\\\""
  else if c = '\\' then "\\\\"
  else if c = '\n' then "\\n"
  else if c = '\r' then "\\r"
  else if c = '\t' then "\\t"
  else if c.toNat = 8 then "\\b"
  else if c.toNat = 12 then "\\f"
  else if c.toNat < 32 then "\\u" ++ hex4 c.toNat
  else if c.toNat < 127 then String.singleton c
  else if c.toNat < 65536 then "\\u" ++ hex4 c.toNat
  else
    let n := c.toNat - 65536
    "\\u" ++ hex4 (55296 + n / 1024) ++ "\\u" ++ hex4 (56320 + n % 1024)

/-- A JSON string literal for `s`. -/
def jsonQuote (s : String) : String :=
  "\"" ++ String.join (s.data.map jsonEscapeChar) ++ "\""

/-- `json.dumps` of one `{'name': ..., 'version': ...}` dict with
`sort_keys=True` (so `"name"` before `"version"`) and the default
separators. -/
def dumpDep (d : Dep) : String :=
  "\x7b\"name\": " ++ jsonQuote d.name ++ ", \"version\": " ++
    jsonQuote d.version ++ "\x7d"

/-- `json.dumps` of the sorted dependency list. -/
def dumpDeps (l : List Dep) : String :=
  "[" ++ String.intercalate ", " (l.map dumpDep) ++ "]"

/-- UTF-8 bytes of one code point. -/
def utf8Char (c : Char) : List Nat :=
  let n := c.toNat
  if n < 128 then [n]
  else if n < 2048 then [192 + n / 64, 128 + n % 64]
  else if n < 65536 then
    [224 + n / 4096, 128 + (n / 64) % 64, 128 + n % 64]
  else
    [240 + n / 262144, 128 + (n / 4096) % 64, 128 + (n / 64) % 64,
     128 + n % 64]

/-- `s.encode()`: UTF-8 bytes of a string. -/
def utf8Bytes (s : String) : List Nat :=
  s.data.flatMap utf8Char

/-! ### MD5 (RFC 1321), executable over byte lists

`hashlib.md5` as used by `calculate_deps_hash` and `md5_file`. Words are
`Nat`s reduced mod 2^32 explicitly. -/

/-- Truncate to a 32-bit word. -/
def w32 (n : Nat) : Nat := n % 4294967296

/-- 32-bit left rotation (the two shifted parts occupy disjoint bit
ranges, so the sum is their bitwise or). -/
def rotl32 (x s : Nat) : Nat := w32 (x * 2 ^ s) + x / 2 ^ (32 - s)

/-- 32-bit complement. -/
def not32 (x : Nat) : Nat := 4294967295 - x

/-- Round constants `K[i] = floor(2^32 * |sin(i+1)|)`. -/
def md5K : List Nat :=
  [0xd76aa478, 0xe8c7b756, 0x242070db, 0xc1bdceee,
   0xf57c0faf, 0x4787c62a, 0xa8304613, 0xfd469501,
   0x698098d8, 0x8b44f7af, 0xffff5bb1, 0x895cd7be,
   0x6b901122, 0xfd987193, 0xa679438e, 0x49b40821,
   0xf61e2562, 0xc040b340, 0x265e5a51, 0xe9b6c7aa,
   0xd62f105d, 0x02441453, 0xd8a1e681, 0xe7d3fbc8,
   0x21e1cde6, 0xc33707d6, 0xf4d50d87, 0x455a14ed,
   0xa9e3e905, 0xfcefa3f8, 0x676f02d9, 0x8d2a4c8a,
   0xfffa3942, 0x8771f681, 0x6d9d6122, 0xfde5380c,
   0xa4beea44, 0x4bdecfa9, 0xf6bb4b60, 0xbebfbc70,
   0x289b7ec6, 0xeaa127fa, 0xd4ef3085, 0x04881d05,
   0xd9d4d039, 0xe6db99e5, 0x1fa27cf8, 0xc4ac5665,
   0xf4292244, 0x432aff97, 0xab9423a7, 0xfc93a039,
   0x655b59c3, 0x8f0ccc92, 0xffeff47d, 0x85845dd1,
   0x6fa87e4f, 0xfe2ce6e0, 0xa3014314, 0x4e0811a1,
   0xf7537e82, 0xbd3af235, 0x2ad7d2bb, 0xeb86d391]

/-- Per-round left-rotation amounts. -/
def md5S : List Nat :=
  [7, 12, 17, 22, 7, 12, 17, 22, 7, 12, 17, 22, 7, 12, 17, 22,
   5, 9, 14, 20, 5, 9, 14, 20, 5, 9, 14, 20, 5, 9, 14, 20,
   4, 11, 16, 23, 4, 11, 16, 23, 4, 11, 16, 23, 4, 11, 16, 23,
   6, 10, 15, 21, 6, 10, 15, 21, 6, 10, 15, 21, 6, 10, 15, 21]

/-- One MD5 round on the state `(a, b, c, d)`. -/
def md5Round (m : Nat → Nat) (st : Nat × Nat × Nat × Nat) (i : Nat) :
    Nat × Nat × Nat × Nat :=
  let (a, b, c, d) := st
  let fg : Nat × Nat :=
    if i < 16 then
      (Nat.lor (Nat.land b c) (Nat.land (not32 b) d), i)
    else if i < 32 then
      (Nat.lor (Nat.land d b) (Nat.land (not32 d) c), (5 * i + 1) % 16)
    else if i < 48 then
      (Nat.xor b (Nat.xor c d), (3 * i + 5) % 16)
    else
      (Nat.xor c (Nat.lor b (not32 d)), (7 * i) % 16)
  let tmp := w32 (fg.1 + a + md5K.getD i 0 + m fg.2)
  (d, w32 (b + rotl32 tmp (md5S.getD i 0)), b, c)

/-- Little-endian 32-bit words of one 64-byte block. -/
def blockWord (block : List Nat) (j : Nat) : Nat :=
  block.getD (4 * j) 0 + 256 * block.getD (4 * j + 1) 0 +
    65536 * block.getD (4 * j + 2) 0 + 16777216 * block.getD (4 * j + 3) 0

/-- Process one 64-byte block: 64 rounds, then add into the state. -/
def md5Block (st : Nat × Nat × Nat × Nat) (block : List Nat) :
    Nat × Nat × Nat × Nat :=
  let (a0, b0, c0, d0) := st
  let (a, b, c, d) :=
    (List.range 64).foldl (md5Round (blockWord block)) (a0, b0, c0, d0)
  (w32 (a0 + a), w32 (b0 + b), w32 (c0 + c), w32 (d0 + d))

/-- MD5 padding: `0x80`, zeros to 56 mod 64, then the bit length as eight
little-endian bytes. -/
def md5Pad (msg : List Nat) : List Nat :=
  let bitLen := msg.length * 8
  let z := (119 - msg.length % 64) % 64
  msg ++ [128] ++ List.replicate z 0 ++
    (List.range 8).map (fun i => bitLen / 2 ^ (8 * i) % 256)

/-- Split into 64-byte blocks (structural recursion with an accumulator,
so the definition reduces; the padded input's length is a multiple of 64,
so the trailing accumulator is always empty). -/
def chunksAux : List Nat → List Nat → List (List Nat)
  | [], cur => if cur.isEmpty then [] else [cur.reverse]
  | b :: rest, cur =>
      if cur.length = 63 then (cur.reverse ++ [b]) :: chunksAux rest []
      else chunksAux rest (b :: cur)

/-- Split into 64-byte blocks. -/
def chunks64 (l : List Nat) : List (List Nat) :=
  chunksAux l []

/-- The sixteen digest bytes of MD5. -/
def md5Bytes (msg : List Nat) : List Nat :=
  let init := (0x67452301, 0xefcdab89, 0x98badcfe, 0x10325476)
  let (a, b, c, d) := (chunks64 (md5Pad msg)).foldl md5Block init
  [a, b, c, d].flatMap
    (fun w => [w % 256, w / 256 % 256, w / 65536 % 256, w / 16777216 % 256])

/-- Two lowercase hex digits of one byte. -/
def byteHex (b : Nat) : String :=
  String.singleton (Nat.digitChar (b / 16 % 16)) ++
    String.singleton (Nat.digitChar (b % 16))

/-- `hashlib.md5(bytes).hexdigest()`. -/
def md5HexBytes (msg : List Nat) : String :=
  String.join ((md5Bytes msg).map byteHex)

/-- MD5 hex digest of a string's UTF-8 bytes (what `md5_file` computes for
a file with this content and `.encode()`+md5 computes for a string). -/
def md5Hex (s : String) : String :=
  md5HexBytes (utf8Bytes s)

/-- `ScriptDepsManager.calculate_deps_hash`:
`hashlib.md5(json.dumps(sorted(deps_list, key=name), sort_keys=True)
.encode()).hexdigest()[:16]`. -/
def calculate_deps_hash (deps : List Dep) : String :=
  strTake (md5Hex (dumpDeps (sortDeps deps))) 16

/-- `ScriptDepsManager.get_cache_path`. -/
def get_cache_path (cacheBase : String) (depsHash : String)
    (runtime : String) : String :=
  cacheBase ++ "/" ++ (if runtime = "python" then "python" else "nodejs")
    ++ "/" ++ depsHash

/-! ### Filesystem model and the cached install protocol -/

/-- The directories that exist, as absolute path strings. -/
structure FS where
  dirs : List String
deriving DecidableEq, Repr

/-- `ScriptDepsManager.is_cache_valid`: the cache path exists and is a
directory. -/
def is_cache_valid (fs : FS) (p : String) : Bool :=
  decide (p ∈ fs.dirs)

/-- `os.makedirs(p, exist_ok=True)`. -/
def makedirs (fs : FS) (p : String) : FS :=
  ⟨p :: fs.dirs⟩

/-- `shutil.rmtree(p, ignore_errors=True)`: removes the directory and
everything below it. -/
def rmtreeF (fs : FS) (p : String) : FS :=
  ⟨fs.dirs.filter (fun d => ¬(d = p ∨ strStarts d (p ++ "/") = true))⟩

/-- Outcome of the guarded install block: the package manager ran and
returned `rc` with output `log`; `communicate` raised `TimeoutExpired`;
or some other exception was raised (`spawned` records whether it happened
before or after the package-manager process started). -/
inductive InstallOutcome where
  | completed (rc : Int) (log : String)
  | timeout
  | exc (spawned : Bool) (msg : String)
deriving DecidableEq, Repr

/-- An outcome on which the install attempt does not succeed. -/
def InstallOutcome.failing : InstallOutcome → Bool
  | .completed rc _ => rc ≠ 0
  | .timeout => true
  | .exc _ _ => true

/-- The result dict of `_install_*_deps_with_cache`. -/
structure InstRes where
  success : Bool
  cachePath : Option String := Option.none
  fromCache : Option Bool := Option.none
  error : Option String := Option.none
deriving DecidableEq, Repr

/-- Side effects of an install attempt. -/
inductive DEv where
  | spawnPM (cmd : List String)
  | wroteMeta (path : String)
  | wrotePkgJson (path : String)
deriving DecidableEq, Repr

/-- `spec = dep['name'] + (dep['version'] if dep['version'] else '')`. -/
def pipSpec (d : Dep) : String := d.name ++ d.version

/-- `ScriptDepsManager._install_python_deps_with_cache`: serve from a
valid cache entry unless forced; otherwise create the directory, run
`pip install --target`, write the metadata file on success, and delete
the whole directory on a non-zero exit, a timeout, or any exception. -/
def install_python_deps_with_cache (cacheBase pyExe : String)
    (deps : List Dep) (force : Bool) (oc : InstallOutcome) (fs : FS) :
    InstRes × FS × List DEv :=
  let depsHash := calculate_deps_hash deps
  let cachePath := get_cache_path cacheBase depsHash "python"
  if ¬force ∧ is_cache_valid fs cachePath then
    ({ success := true, cachePath := some cachePath,
       fromCache := some true }, fs, [])
  else
    let fs1 := makedirs fs cachePath
    let cmd := [pyExe, "-m", "pip", "install", "--target", cachePath] ++
      deps.map pipSpec
    match oc with
    | .completed rc log =>
        if rc = 0 then
          ({ success := true, cachePath := some cachePath,
             fromCache := some false }, fs1,
           [.spawnPM cmd, .wroteMeta (cachePath ++ "/.deps_meta.json")])
        else
          ({ success := false, error := some log }, rmtreeF fs1 cachePath,
           [.spawnPM cmd])
    | .timeout =>
        ({ success := false, error := some "安装超时" },
         rmtreeF fs1 cachePath, [.spawnPM cmd])
    | .exc spawned msg =>
        ({ success := false, error := some msg }, rmtreeF fs1 cachePath,
         if spawned then [.spawnPM cmd] else [])

/-- `ScriptDepsManager._install_nodejs_deps_with_cache`: same protocol
with `npm install --prefix` after writing a synthesized `package.json`
into the cache directory. -/
def install_nodejs_deps_with_cache (cacheBase : String)
    (deps : List Dep) (force : Bool) (oc : InstallOutcome) (fs : FS) :
    InstRes × FS × List DEv :=
  let depsHash := calculate_deps_hash deps
  let cachePath := get_cache_path cacheBase depsHash "nodejs"
  if ¬force ∧ is_cache_valid fs cachePath then
    ({ success := true, cachePath := some cachePath,
       fromCache := some true }, fs, [])
  else
    let fs1 := makedirs fs cachePath
    let cmd := ["npm", "install", "--prefix", cachePath]
    match oc with
    | .completed rc log =>
        if rc = 0 then
          ({ success := true, cachePath := some cachePath,
             fromCache := some false }, fs1,
           [.wrotePkgJson (cachePath ++ "/package.json"), .spawnPM cmd,
            .wroteMeta (cachePath ++ "/.deps_meta.json")])
        else
          ({ success := false, error := some log }, rmtreeF fs1 cachePath,
           [.wrotePkgJson (cachePath ++ "/package.json"), .spawnPM cmd])
    | .timeout =>
        ({ success := false, error := some "安装超时" },
         rmtreeF fs1 cachePath,
         [.wrotePkgJson (cachePath ++ "/package.json"), .spawnPM cmd])
    | .exc spawned msg =>
        ({ success := false, error := some msg }, rmtreeF fs1 cachePath,
         if spawned then
           [.wrotePkgJson (cachePath ++ "/package.json"), .spawnPM cmd]
         else [])

/-! ## Registrar scan step (`parse_and_register`, src/services/scanner.py) -/

/-- `detect_script_type`. -/
def detect_script_type (p : String) : Option String :=
  if strEnds p ".py" then some "python"
  else if strEnds p ".js" then some "js"
  else Option.none

/-- ASCII whitespace matched by the regex class `\s` on the inputs we
consider. -/
def isWsChar (c : Char) : Bool :=
  c = ' ' ∨ c = '\t' ∨ c = '\n' ∨ c = '\r' ∨ c.toNat = 11 ∨ c.toNat = 12

/-- Consume a leading run of whitespace (`\s*`). -/
def skipWs : List Char → List Char
  | c :: r => if isWsChar c then skipWs r else c :: r
  | [] => []

/-- Consume `\s+`: at least one whitespace character. -/
def ws1 : List Char → Option (List Char)
  | c :: r => if isWsChar c then some (skipWs r) else Option.none
  | [] => Option.none

/-- Consume a literal. -/
def litTok : List Char → List Char → Option (List Char)
  | [], l => some l
  | _ :: _, [] => Option.none
  | c :: cs, x :: xs => if c = x then litTok cs xs else Option.none

/-- One quote character of the regex class `["']`. -/
def isQuoteChar (c : Char) : Bool :=
  c = '"' ∨ c.toNat = 39

/-- Match `if\s+__name__\s*==\s*["']__main__["']\s*:` anchored at the
start of `l`. The two quote classes are independent in the regex, so
mixed quotes match, exactly as in the source pattern. Greedy whitespace
consumption is equivalent to the regex here because no literal that
follows a `\s*`/`\s+` begins with whitespace. -/
def pyMainAt (l : List Char) : Bool :=
  (do
    let l ← litTok "if".data l
    let l ← ws1 l
    let l ← litTok "__name__".data l
    let l := skipWs l
    let l ← litTok "==".data l
    let l := skipWs l
    let l ← match l with
      | c :: r => if isQuoteChar c then some r else Option.none
      | [] => Option.none
    let l ← litTok "__main__".data l
    let l ← match l with
      | c :: r => if isQuoteChar c then some r else Option.none
      | [] => Option.none
    let l := skipWs l
    match l with
    | c :: _ => if c = ':' then some () else Option.none
    | [] => Option.none).isSome

/-- `re.search` of the entry-point pattern: try every start position. -/
def pyMainSearch : List Char → Bool
  | [] => false
  | l@(_ :: t) => pyMainAt l || pyMainSearch t

/-- Python's `needle in hay` substring test. -/
def containsSub (hay needle : List Char) : Bool :=
  match hay with
  | [] => needle.isEmpty
  | _ :: t => listStarts needle hay || containsSub t needle

/-- `has_entrypoint` applied to the file's text (the source reads the file
itself; an unreadable file yields `False` and is outside this model). -/
def has_entrypoint (text : String) (stype : String) : Bool :=
  if stype = "python" then pyMainSearch text.data
  else if stype = "js" then
    containsSub text.data "module.exports".data ||
      containsSub text.data "export default".data
  else false

/-- `os.path.basename`. -/
def basenameOf (p : String) : String :=
  ⟨(p.data.reverse.takeWhile (fun c => c ≠ '/')).reverse⟩

/-- `os.path.dirname`. -/
def dirnameOf (p : String) : String :=
  ⟨((p.data.reverse.dropWhile (fun c => c ≠ '/')).drop 1).reverse⟩

/-- `os.path.splitext(b)[0]`: everything before the last dot, when there
is one. -/
def stemOf (b : String) : String :=
  if b.data.contains '.' then
    ⟨((b.data.reverse.dropWhile (fun c => c ≠ '.')).drop 1).reverse⟩
  else b

/-- `os.path.join` for the shapes the scanner produces. -/
def joinP (d b : String) : String :=
  if d = "" then b else d ++ "/" ++ b

/-- `mapjson_sidecar_path`. -/
def mapjson_sidecar_path (p : String) : String :=
  joinP (dirnameOf p) (stemOf (basenameOf p) ++ "._map.json")

/-- `os.path.relpath(path, dir)` for the scanner's layout, where `path`
lives under `dir`. -/
def relPathUnder (dir p : String) : String :=
  if strStarts p (dir ++ "/") then strDrop p (dir.length + 1) else p

/-- Outcome of `run_get_schema`: `(True, stdout_text, None)` when the
discovery child exits 0, `(False, None, err_text)` otherwise (exceptions
folded into the error text, as in the source). -/
inductive DiscOutcome where
  | ok (text : String)
  | fail (err : String)
deriving DecidableEq, Repr

/-- Side effects of one `parse_and_register` call: the discovery
subprocess spawn, the sidecar write, and the catalog upsert (filename,
type, content hash, load status, error text, canonical schema JSON). -/
inductive ScanEv where
  | runSchema (cmd : List String)
  | wroteSidecar (path text : String)
  | upsert (filename stype fileHash : String) (statusLoad : Nat)
      (loadError : Option String) (argsSchema : Option String)
deriving DecidableEq, Repr

/-- `parse_and_register(path)` over the file's current content. `jparse`
abstracts `json.loads` + `json.dumps(ensure_ascii=False)` — the canonical
re-serialization on success, `str(e)` of the raised exception otherwise.
Note the function receives no record of any previous scan: the freshly
computed `md5_file` hash is stored via `upsert_script` but never compared
to a stored one, so the discovery subprocess runs on every call. -/
def parse_and_register (pyDir jsDir : String) (path content : String)
    (disc : DiscOutcome) (jparse : String → Except String String) :
    List ScanEv :=
  match detect_script_type path with
  | Option.none => []
  | some stype =>
    let relativePath :=
      if stype = "python" then relPathUnder pyDir path
      else relPathUnder jsDir path
    if ¬has_entrypoint content stype then []
    else
      let fileHash := md5Hex content
      let cmd :=
        if stype = "python" then ["python3", path, "--_sys_get_schema"]
        else ["node", path, "--_sys_get_schema"]
      match disc with
      | .fail err =>
          [.runSchema cmd,
           .upsert relativePath stype fileHash 0
             (some (if err = "" then "unknown error" else err)) Option.none]
      | .ok text =>
          match jparse text with
          | .ok canon =>
              [.runSchema cmd,
               .wroteSidecar (mapjson_sidecar_path path) canon,
               .upsert relativePath stype fileHash 1 Option.none (some canon)]
          | .error e =>
              let preview :=
                if text.length > 500 then strTake text 500 ++ "..." else text
              [.runSchema cmd,
               .upsert relativePath stype fileHash 0
                 (some ("Invalid schema JSON: " ++ e ++
                   "\n原始输出内容:\n" ++ preview)) Option.none]

/-! ## Shared concrete instantiations and trace predicates

Used by the theorems below to instantiate the abstract float / byte /
json parameters at concrete inputs (none of those inputs involves a
float, a byte payload or a parsed json value, so trivial carriers
suffice), and to count event kinds in traces. -/

/-- Decidable equality on `Except`, so concrete marshaling outcomes can be
settled by `decide`. -/
instance instDecEqExcept {ε α : Type} [DecidableEq ε] [DecidableEq α] :
    DecidableEq (Except ε α)
  | .error e, .error f => decidable_of_iff (e = f) (by simp)
  | .error _, .ok _ => isFalse (by simp)
  | .ok _, .error _ => isFalse (by simp)
  | .ok a, .ok b => decidable_of_iff (a = b) (by simp)

/-- Trivial float parser: no value of the universe is a float here. -/
def fpU : Value → Option Unit := fun _ => Option.none

/-- Trivial float printer. -/
def frU : Unit → String := fun _ => ""

/-- Trivial stdout decoder: decoding/parsing always fails. -/
def dpU : Unit → Option (String × Unit) := fun _ => Option.none

/-- Trivial stderr decoder. -/
def deU : Unit → String := fun _ => ""

/-- Trivial byte length. -/
def blU : Unit → Nat := fun _ => 0

/-- Is this event a run-ledger write? -/
def isInsertRunEv : Ev → Bool
  | .insertRun .. => true
  | _ => false

/-- Is this event a `proc.kill()`? -/
def isKillEv : Ev → Bool
  | .kill _ => true
  | _ => false

/-- Is this event a process spawn? -/
def isSpawnEv : Ev → Bool
  | .spawn _ => true
  | _ => false

/-- Is this event the registry insertion of `i`? -/
def isRegAddOf (i : Int) : Ev → Bool
  | .regAdd j => j = i
  | _ => false

/-- Is this event the registry removal of `i`? -/
def isRegDelOf (i : Int) : Ev → Bool
  | .regDel j => j = i
  | _ => false

/-- Is this event any registry operation on `i`? -/
def isRegOpOf (i : Int) : Ev → Bool
  | .regAdd j => j = i
  | .regDel j => j = i
  | _ => false

/-- Scoping of the registry operations on id `i` in one `_execute_script`
trace: either the trace opens with a spawn immediately followed by the
insertion of `i` and then (once the wait ends) its removal, with no
further registry operation on `i` afterwards — or it performs no registry
operation on `i` at all. This is "the registry holds `i` only while the
child is in flight" as a trace property. -/
def regScoped (i : Int) (evs : List Ev) : Bool :=
  match evs with
  | .spawn _ :: .regAdd j :: .regDel j2 :: rest =>
      (j = i && j2 = i && (rest.countP (isRegOpOf i) == 0))
        || (evs.countP (isRegOpOf i) == 0)
  | _ => evs.countP (isRegOpOf i) == 0

/-- Script-root directories used for the concrete executor and scanner
inputs below. -/
def cPyDir : String := "scripts_repo/python"

/-- Concrete js script root. -/
def cJsDir : String := "scripts_repo/js"

/-- Concrete script row for the executor theorems. -/
def cScript : Script := ⟨1, "hello.py", "python", some 0⟩

/-- The `{"flag": "--n", "type": "int", "required": true}` entry of the
spec's canonical example. -/
def nIntMeta : ParamMeta := ⟨some "--n", some "int", true⟩

/-- Concrete scanner input path. -/
def c8Path : String := "scripts_repo/python/hello.py"

/-- Concrete scanner file content carrying the Python entry-point
marker. -/
def c8Content : String := "if __name__ == \"__main__\":\n    print(1)\n"

/-- The trace of one registrar scan step over `c8Path`/`c8Content` with a
discovery child that prints `{}` and exits 0. A later rescan of the
unchanged file is this very same call (the function takes no record of
the previous scan), so its trace is this very same list. -/
def c8Evs : List ScanEv :=
  parse_and_register cPyDir cJsDir c8Path c8Content (.ok "\x7b\x7d")
    (fun s => .ok s)

/-! ## Helper lemmas about the marshaler -/

theorem lookupV_cons (hd : String × Value) (tl : List (String × Value))
    (k : String) :
    lookupV (hd :: tl) k = if hd.1 = k then hd.2 else lookupV tl k := by
  unfold lookupV
  by_cases h : hd.1 = k <;> simp [List.find?, h]

theorem lookupV_filter (c : String → Bool) (params : List (String × Value))
    (k : String) (hk : c k = true) :
    lookupV (params.filter (fun p => c p.1)) k = lookupV params k := by
  induction params with
  | nil => rfl
  | cons hd tl ih =>
    by_cases h1 : hd.1 = k
    · have hc : c hd.1 = true := by rw [h1]; exact hk
      simp [List.filter_cons, hc, hk, lookupV_cons, h1]
    · by_cases h2 : c hd.1 = true
      · simp [List.filter_cons, h2, lookupV_cons, h1, ih]
      · simp [List.filter_cons, h2, lookupV_cons, h1, ih]

theorem build_cli_args_congr {F : Type} (fp : Value → Option F)
    (fr : F → String) (schema : List (String × ParamMeta))
    {p1 p2 : List (String × Value)}
    (h : ∀ n ∈ schema.map Prod.fst, lookupV p1 n = lookupV p2 n) :
    build_cli_args fp fr schema p1 = build_cli_args fp fr schema p2 := by
  induction schema with
  | nil => rfl
  | cons hd tl ih =>
    obtain ⟨name, meta⟩ := hd
    have hn : lookupV p1 name = lookupV p2 name := h name (by simp)
    have ht : ∀ n ∈ tl.map Prod.fst, lookupV p1 n = lookupV p2 n :=
      fun n hn' => h n (by simp [hn'])
    simp only [build_cli_args, hn, ih ht]

theorem build_cli_args_cons_absent {F : Type} (fp : Value → Option F)
    (fr : F → String) (name : String) (meta : ParamMeta)
    (tl : List (String × ParamMeta)) (params : List (String × Value))
    (hv : lookupV params name = Value.none) :
    build_cli_args fp fr ((name, meta) :: tl) params =
      if meta.required then .error (.missingParam name)
      else build_cli_args fp fr tl params := by
  simp only [build_cli_args, hv]

theorem build_cli_args_cons_present {F : Type} (fp : Value → Option F)
    (fr : F → String) (name : String) (meta : ParamMeta)
    (tl : List (String × ParamMeta)) (params : List (String × Value))
    (val : Value) (hv : lookupV params name = val)
    (hne : val ≠ Value.none) :
    build_cli_args fp fr ((name, meta) :: tl) params =
      (procOne fp fr meta val).bind (fun te =>
        (build_cli_args fp fr tl params).map (fun ce =>
          (meta.flag :: some te.1 :: ce.1, (name, te.2) :: ce.2))) := by
  simp only [build_cli_args, hv]
  cases val with
  | none => exact absurd rfl hne
  | str s => rfl
  | int n => rfl
  | bool b => rfl

theorem build_eff_keys_declared {F : Type} (fp : Value → Option F)
    (fr : F → String) :
    ∀ (schema : List (String × ParamMeta)) (params : List (String × Value))
      (cli : List (Option String)) (eff : List (String × EffVal F)),
      build_cli_args fp fr schema params = .ok (cli, eff) →
      ∀ k ∈ eff.map Prod.fst, k ∈ schema.map Prod.fst := by
  intro schema
  induction schema with
  | nil =>
    intro params cli eff h k hk
    simp only [build_cli_args] at h
    cases h
    simp at hk
  | cons hd tl ih =>
    intro params cli eff h k hk
    obtain ⟨name, meta⟩ := hd
    cases hv : lookupV params name with
    | none =>
      rw [build_cli_args_cons_absent fp fr name meta tl params hv] at h
      by_cases hr : meta.required = true
      · simp [hr] at h
      · simp only [hr, if_false, Bool.false_eq_true] at h
        have := ih params cli eff h k hk
        simp [this]
    | str s =>
      rw [build_cli_args_cons_present fp fr name meta tl params _ hv
        (by simp)] at h
      cases hp : procOne fp fr meta (.str s) with
      | error e => rw [hp] at h; simp [Except.bind] at h
      | ok te =>
        rw [hp] at h
        cases hb : build_cli_args fp fr tl params with
        | error e => rw [hb] at h; simp [Except.bind, Except.map] at h
        | ok ce =>
          rw [hb] at h
          simp only [Except.bind, Except.map, Except.ok.injEq] at h
          obtain ⟨-, rfl⟩ := Prod.mk.injEq .. ▸ h
          simp only [List.map_cons, List.mem_cons] at hk
          rcases hk with rfl | hk
          · simp
          · have := ih params ce.1 ce.2 (by rw [hb]) k hk
            simp [this]
    | int n =>
      rw [build_cli_args_cons_present fp fr name meta tl params _ hv
        (by simp)] at h
      cases hp : procOne fp fr meta (.int n) with
      | error e => rw [hp] at h; simp [Except.bind] at h
      | ok te =>
        rw [hp] at h
        cases hb : build_cli_args fp fr tl params with
        | error e => rw [hb] at h; simp [Except.bind, Except.map] at h
        | ok ce =>
          rw [hb] at h
          simp only [Except.bind, Except.map, Except.ok.injEq] at h
          obtain ⟨-, rfl⟩ := Prod.mk.injEq .. ▸ h
          simp only [List.map_cons, List.mem_cons] at hk
          rcases hk with rfl | hk
          · simp
          · have := ih params ce.1 ce.2 (by rw [hb]) k hk
            simp [this]
    | bool b =>
      rw [build_cli_args_cons_present fp fr name meta tl params _ hv
        (by simp)] at h
      cases hp : procOne fp fr meta (.bool b) with
      | error e => rw [hp] at h; simp [Except.bind] at h
      | ok te =>
        rw [hp] at h
        cases hb : build_cli_args fp fr tl params with
        | error e => rw [hb] at h; simp [Except.bind, Except.map] at h
        | ok ce =>
          rw [hb] at h
          simp only [Except.bind, Except.map, Except.ok.injEq] at h
          obtain ⟨-, rfl⟩ := Prod.mk.injEq .. ▸ h
          simp only [List.map_cons, List.mem_cons] at hk
          rcases hk with rfl | hk
          · simp
          · have := ih params ce.1 ce.2 (by rw [hb]) k hk
            simp [this]

/-! ## Claim C1: undeclared parameters -/

/-- C1, as stated, is false: with the empty schema and the input map
`{"x": "1"}`, the parameter `x` is present in the input but not declared,
yet `build_cli_args` does not fail — it returns the empty argv and the
empty effective map. -/
theorem c1_counterexample :
    build_cli_args fpU frU [] [("x", Value.str "1")] = .ok ([], []) := rfl

/-- C1 (amended): `build_cli_args` silently ignores parameters not
declared in the schema instead of rejecting them. Its whole output is
unchanged when the input map is restricted to the declared names, and on
success every key of the effective map is a declared name — so no token
derived from an undeclared parameter appears in the argv or the
effective map, but marshaling succeeds rather than fails. -/
theorem c1_undeclared_silently_ignored {F : Type} (fp : Value → Option F)
    (fr : F → String) (schema : List (String × ParamMeta))
    (params : List (String × Value)) :
    build_cli_args fp fr schema params =
      build_cli_args fp fr schema
        (params.filter (fun p => (schema.map Prod.fst).contains p.1)) ∧
    (∀ cli eff, build_cli_args fp fr schema params = .ok (cli, eff) →
      ∀ k ∈ eff.map Prod.fst, k ∈ schema.map Prod.fst) := by
  constructor
  · refine build_cli_args_congr fp fr schema (fun n hn => ?_)
    have hc : (schema.map Prod.fst).contains n = true := by
      simpa using hn
    exact (lookupV_filter (fun s => (schema.map Prod.fst).contains s)
      params n hc).symm
  · intro cli eff h
    exact build_eff_keys_declared fp fr schema params cli eff h

/-- Witness for C1 (amended) at a concrete schema and input map with one
declared and one undeclared parameter. -/
theorem c1_witness :
    build_cli_args fpU frU [("n", nIntMeta)]
        [("n", Value.str "5"), ("x", Value.str "1")] =
      build_cli_args fpU frU [("n", nIntMeta)]
        ([("n", Value.str "5"), ("x", Value.str "1")].filter
          (fun p => ([("n", nIntMeta)].map Prod.fst).contains p.1)) ∧
    "n" ∈ [("n", nIntMeta)].map Prod.fst :=
  ⟨(c1_undeclared_silently_ignored fpU frU [("n", nIntMeta)]
      [("n", Value.str "5"), ("x", Value.str "1")]).1,
   (c1_undeclared_silently_ignored fpU frU [("n", nIntMeta)]
      [("n", Value.str "5"), ("x", Value.str "1")]).2
     [some "--n", some "5"] [("n", .int 5)] (by decide) "n" (by simp)⟩

/-! ## Claim C3: missing required parameter -/

theorem build_err_of_missing {F : Type} (fp : Value → Option F)
    (fr : F → String) :
    ∀ (schema : List (String × ParamMeta)) (params : List (String × Value))
      (name : String) (meta : ParamMeta),
      (name, meta) ∈ schema → meta.required = true →
      lookupV params name = Value.none →
      ∃ e, build_cli_args fp fr schema params = .error e := by
  intro schema
  induction schema with
  | nil => intro params name meta h; simp at h
  | cons hd tl ih =>
    intro params name meta hmem hreq hlook
    rcases List.mem_cons.mp hmem with heq | hmem'
    · subst heq
      rw [build_cli_args_cons_absent fp fr name meta tl params hlook, hreq]
      exact ⟨.missingParam name, rfl⟩
    · obtain ⟨name0, meta0⟩ := hd
      cases hv : lookupV params name0 with
      | none =>
        rw [build_cli_args_cons_absent fp fr name0 meta0 tl params hv]
        by_cases hr : meta0.required = true
        · exact ⟨.missingParam name0, by simp [hr]⟩
        · simp only [hr, if_false, Bool.false_eq_true]
          exact ih params name meta hmem' hreq hlook
      | str s =>
        rw [build_cli_args_cons_present fp fr name0 meta0 tl params _ hv
          (by simp)]
        cases hp : procOne fp fr meta0 (.str s) with
        | error e => exact ⟨e, by simp [Except.bind]⟩
        | ok te =>
          obtain ⟨e, he⟩ := ih params name meta hmem' hreq hlook
          exact ⟨e, by simp [Except.bind, he, Except.map]⟩
      | int n =>
        rw [build_cli_args_cons_present fp fr name0 meta0 tl params _ hv
          (by simp)]
        cases hp : procOne fp fr meta0 (.int n) with
        | error e => exact ⟨e, by simp [Except.bind]⟩
        | ok te =>
          obtain ⟨e, he⟩ := ih params name meta hmem' hreq hlook
          exact ⟨e, by simp [Except.bind, he, Except.map]⟩
      | bool b =>
        rw [build_cli_args_cons_present fp fr name0 meta0 tl params _ hv
          (by simp)]
        cases hp : procOne fp fr meta0 (.bool b) with
        | error e => exact ⟨e, by simp [Except.bind]⟩
        | ok te =>
          obtain ⟨e, he⟩ := ih params name meta hmem' hreq hlook
          exact ⟨e, by simp [Except.bind, he, Except.map]⟩

/-- C3, as universally stated, is false: in the schema
`{"a": int required, "b": str required}` with input `{"a": "x"}`, the
required parameter `b` is absent, yet marshaling fails with the
`ValueError` raised by `int("x")` for `a` — not with a MissingParameter
error naming `b` (the loop reaches `a` first). -/
theorem c3_counterexample :
    build_cli_args fpU frU
        [("a", ⟨some "--a", some "int", true⟩),
         ("b", ⟨some "--b", some "str", true⟩)]
        [("a", Value.str "x")] = .error (.badInt (.str "x")) ∧
      MarshalErr.badInt (.str "x") ≠ .missingParam "b" := by
  exact ⟨by decide, by decide⟩

/-- C3 (amended): whenever a required parameter is absent (or `None`),
marshaling fails with some `MarshalError` — a MissingParameter naming the
first absent required parameter unless an earlier declared parameter's
coercion raises first — no argv is produced, and `_execute_script`
re-raises before any spawn: its trace is empty and the registry is
untouched. In particular, for the canonical example schema
`{"n": {"flag": "--n", "type": "int", "required": true}}`: the empty
input fails with MissingParameter("n"), and `{"n": "5"}` yields argv
`["--n", "5"]`. -/
theorem c3_missing_required_blocks_spawn {F : Type} (fp : Value → Option F)
    (fr : F → String) (schema : List (String × ParamMeta))
    (params : List (String × Value)) (name : String) (meta : ParamMeta)
    (hmem : (name, meta) ∈ schema) (hreq : meta.required = true)
    (habs : lookupV params name = Value.none) :
    (∃ e, build_cli_args fp fr schema params = .error e) ∧
    (∀ {B J : Type} (dp : B → Option (String × J)) (de : B → String)
      (bl : B → Nat) (pyDir jsDir : String) (sc : Script)
      (outcome : SpawnOutcome B) (durMs : Nat) (runId : Int)
      (artUrl artName : String) (reg : Registry),
      (∃ e, (execute_script fp fr dp de bl pyDir jsDir sc schema params
          outcome durMs runId artUrl artName reg).1 = .error e) ∧
      (execute_script fp fr dp de bl pyDir jsDir sc schema params
          outcome durMs runId artUrl artName reg).2.1 = reg ∧
      (execute_script fp fr dp de bl pyDir jsDir sc schema params
          outcome durMs runId artUrl artName reg).2.2 = []) ∧
    build_cli_args fp fr [("n", nIntMeta)] [] =
      .error (.missingParam "n") ∧
    build_cli_args fp fr [("n", nIntMeta)] [("n", Value.str "5")] =
      .ok ([some "--n", some "5"], [("n", .int 5)]) := by
  obtain ⟨e, he⟩ :=
    build_err_of_missing fp fr schema params name meta hmem hreq habs
  refine ⟨⟨e, he⟩, ?_, rfl, rfl⟩
  intro B J dp de bl pyDir jsDir sc outcome durMs runId artUrl artName reg
  refine ⟨⟨e, ?_⟩, ?_, ?_⟩ <;> simp [execute_script, he]

/-- Witness for C3 (amended) at the canonical example schema. -/
theorem c3_witness :
    (("n", nIntMeta) ∈ [("n", nIntMeta)] ∧ nIntMeta.required = true ∧
      lookupV [] "n" = Value.none) ∧
    ((∃ e, build_cli_args fpU frU [("n", nIntMeta)] [] = .error e) ∧
      (execute_script fpU frU dpU deU blU cPyDir cJsDir cScript
          [("n", nIntMeta)] [] (.spawned .timeout) 0 0 "" "" []).2.2 = []) :=
  ⟨⟨by simp, rfl, rfl⟩,
   (c3_missing_required_blocks_spawn fpU frU [("n", nIntMeta)] [] "n"
       nIntMeta (by simp) rfl rfl).1,
   ((c3_missing_required_blocks_spawn fpU frU [("n", nIntMeta)] [] "n"
       nIntMeta (by simp) rfl rfl).2.1 dpU deU blU cPyDir cJsDir cScript
     (.spawned .timeout) 0 0 "" "" []).2.2⟩

/-! ## Claim C4: deterministic argv order -/

theorem build_flags_order {F : Type} (fp : Value → Option F)
    (fr : F → String) :
    ∀ (schema : List (String × ParamMeta)) (params : List (String × Value))
      (cli : List (Option String)) (eff : List (String × EffVal F)),
      build_cli_args fp fr schema params = .ok (cli, eff) →
      evens cli =
        (schema.filter (fun q => presentIn params q.1)).map
          (fun q => q.2.flag) := by
  intro schema
  induction schema with
  | nil =>
    intro params cli eff h
    simp only [build_cli_args] at h
    cases h
    rfl
  | cons hd tl ih =>
    intro params cli eff h
    obtain ⟨name, meta⟩ := hd
    cases hv : lookupV params name with
    | none =>
      rw [build_cli_args_cons_absent fp fr name meta tl params hv] at h
      by_cases hr : meta.required = true
      · simp [hr] at h
      · simp only [hr, if_false, Bool.false_eq_true] at h
        have := ih params cli eff h
        simp [List.filter_cons, presentIn, hv, this]
    | str s =>
      rw [build_cli_args_cons_present fp fr name meta tl params _ hv
        (by simp)] at h
      cases hp : procOne fp fr meta (.str s) with
      | error e => rw [hp] at h; simp [Except.bind] at h
      | ok te =>
        rw [hp] at h
        cases hb : build_cli_args fp fr tl params with
        | error e => rw [hb] at h; simp [Except.bind, Except.map] at h
        | ok ce =>
          rw [hb] at h
          simp only [Except.bind, Except.map, Except.ok.injEq] at h
          obtain ⟨rfl, -⟩ := Prod.mk.injEq .. ▸ h
          have := ih params ce.1 ce.2 (by rw [hb])
          simp [List.filter_cons, presentIn, hv, evens, this]
    | int n =>
      rw [build_cli_args_cons_present fp fr name meta tl params _ hv
        (by simp)] at h
      cases hp : procOne fp fr meta (.int n) with
      | error e => rw [hp] at h; simp [Except.bind] at h
      | ok te =>
        rw [hp] at h
        cases hb : build_cli_args fp fr tl params with
        | error e => rw [hb] at h; simp [Except.bind, Except.map] at h
        | ok ce =>
          rw [hb] at h
          simp only [Except.bind, Except.map, Except.ok.injEq] at h
          obtain ⟨rfl, -⟩ := Prod.mk.injEq .. ▸ h
          have := ih params ce.1 ce.2 (by rw [hb])
          simp [List.filter_cons, presentIn, hv, evens, this]
    | bool b =>
      rw [build_cli_args_cons_present fp fr name meta tl params _ hv
        (by simp)] at h
      cases hp : procOne fp fr meta (.bool b) with
      | error e => rw [hp] at h; simp [Except.bind] at h
      | ok te =>
        rw [hp] at h
        cases hb : build_cli_args fp fr tl params with
        | error e => rw [hb] at h; simp [Except.bind, Except.map] at h
        | ok ce =>
          rw [hb] at h
          simp only [Except.bind, Except.map, Except.ok.injEq] at h
          obtain ⟨rfl, -⟩ := Prod.mk.injEq .. ▸ h
          have := ih params ce.1 ce.2 (by rw [hb])
          simp [List.filter_cons, presentIn, hv, evens, this]

theorem lookupV_perm :
    ∀ {p1 p2 : List (String × Value)}, p1.Perm p2 →
      (p1.map Prod.fst).Nodup → ∀ k, lookupV p1 k = lookupV p2 k := by
  intro p1 p2 h
  induction h with
  | nil => intro _ k; rfl
  | cons x h ih =>
    intro hn k
    rw [List.map_cons, List.nodup_cons] at hn
    by_cases hx : x.1 = k <;> simp [lookupV_cons, hx, ih hn.2 k]
  | swap x y l =>
    intro hn k
    rw [List.map_cons, List.map_cons, List.nodup_cons] at hn
    obtain ⟨hy, -⟩ := hn
    have hyx : y.1 ≠ x.1 := fun hh => hy (by simp [hh])
    by_cases h1 : y.1 = k
    · have h2 : ¬x.1 = k := fun hc => hyx (h1.trans hc.symm)
      simp [lookupV_cons, h1, h2]
    · by_cases h2 : x.1 = k <;> simp [lookupV_cons, h1, h2]
  | trans h1 h2 ih1 ih2 =>
    intro hn k
    have hn2 := ((h1.map Prod.fst).nodup_iff).mp hn
    rw [ih1 hn k, ih2 hn2 k]

/-- C4: on success the argv's flag tokens (its even positions) are exactly
the declared flags of the present parameters in schema declaration order,
and the whole marshaling result is invariant under permuting the input
map's bindings (the iteration order of a Python dict), for maps with the
unique keys a dict guarantees. -/
theorem c4_argv_schema_order_map_order_free {F : Type}
    (fp : Value → Option F) (fr : F → String)
    (schema : List (String × ParamMeta)) :
    (∀ (params : List (String × Value)) cli eff,
      build_cli_args fp fr schema params = .ok (cli, eff) →
      evens cli =
        (schema.filter (fun q => presentIn params q.1)).map
          (fun q => q.2.flag)) ∧
    (∀ (p1 p2 : List (String × Value)), p1.Perm p2 →
      (p1.map Prod.fst).Nodup →
      build_cli_args fp fr schema p1 = build_cli_args fp fr schema p2) := by
  constructor
  · intro params cli eff h
    exact build_flags_order fp fr schema params cli eff h
  · intro p1 p2 hperm hn
    exact build_cli_args_congr fp fr schema
      (fun n _ => lookupV_perm hperm hn n)

/-- Witness for C4 at a two-parameter schema and the two orders of the
same input map. -/
theorem c4_witness :
    (build_cli_args fpU frU
        [("a", ⟨some "--a", some "int", true⟩), ("n", nIntMeta)]
        [("n", Value.str "5"), ("a", Value.str "7")] =
      .ok ([some "--a", some "7", some "--n", some "5"],
        [("a", .int 7), ("n", .int 5)])) ∧
    evens [some "--a", some "7", some "--n", some "5"] =
      ([("a", (⟨some "--a", some "int", true⟩ : ParamMeta)),
        ("n", nIntMeta)].filter
          (fun q => presentIn [("n", Value.str "5"), ("a", Value.str "7")]
            q.1)).map (fun q => q.2.flag) ∧
    ([("n", Value.str "5"), ("a", Value.str "7")] :
        List (String × Value)).Perm
      [("a", Value.str "7"), ("n", Value.str "5")] ∧
    build_cli_args fpU frU
        [("a", ⟨some "--a", some "int", true⟩), ("n", nIntMeta)]
        [("n", Value.str "5"), ("a", Value.str "7")] =
      build_cli_args fpU frU
        [("a", ⟨some "--a", some "int", true⟩), ("n", nIntMeta)]
        [("a", Value.str "7"), ("n", Value.str "5")] :=
  ⟨by decide,
   (c4_argv_schema_order_map_order_free fpU frU
       [("a", ⟨some "--a", some "int", true⟩), ("n", nIntMeta)]).1
     [("n", Value.str "5"), ("a", Value.str "7")]
     [some "--a", some "7", some "--n", some "5"]
     [("a", .int 7), ("n", .int 5)] (by decide),
   List.Perm.swap ("a", Value.str "7") ("n", Value.str "5") [],
   (c4_argv_schema_order_map_order_free fpU frU
       [("a", ⟨some "--a", some "int", true⟩), ("n", nIntMeta)]).2
     [("n", Value.str "5"), ("a", Value.str "7")]
     [("a", Value.str "7"), ("n", Value.str "5")]
     (List.Perm.swap ("a", Value.str "7") ("n", Value.str "5") [])
     (by decide)⟩

/-! ## Claim C9: bool coercion -/

/-- C9: for a declared bool-typed parameter with a string value, the
truthy test is exactly `lower(s) ∈ {"true", "1", "yes"}` (every other
string is false), and the token placed in argv is the canonical "1" or
"0" — in particular always one of those two, never the raw input. Stated
for the per-parameter coercion of `build_cli_args` and for a schema
consisting of that parameter. -/
theorem c9_bool_canonical_token {F : Type} (fp : Value → Option F)
    (fr : F → String) (name : String) (meta : ParamMeta) (s : String)
    (hty : meta.typ = some "bool") :
    procOne fp fr meta (.str s) =
      .ok ((if pyTruthyTok s then "1" else "0"),
        .int (if pyTruthyTok s then 1 else 0)) ∧
    build_cli_args fp fr [(name, meta)] [(name, Value.str s)] =
      .ok ([meta.flag, some (if pyTruthyTok s then "1" else "0")],
        [(name, .int (if pyTruthyTok s then 1 else 0))]) ∧
    (pyTruthyTok s = true ↔
      (pyLower s = "true" ∨ pyLower s = "1" ∨ pyLower s = "yes")) ∧
    ((if pyTruthyTok s then "1" else "0") = "1" ∨
      (if pyTruthyTok s then "1" else "0") = "0") := by
  have hproc : procOne fp fr meta (.str s) =
      .ok ((if pyTruthyTok s then "1" else "0"),
        .int (if pyTruthyTok s then 1 else 0)) := by
    simp only [procOne, hty, Option.getD_some]
    rw [if_neg (by decide), if_neg (by decide)]
    by_cases hb : pyTruthyTok s = true <;> simp [hb] <;> rfl
  refine ⟨hproc, ?_, ?_, ?_⟩
  · rw [build_cli_args_cons_present fp fr name meta []
      [(name, Value.str s)] (.str s) (by simp [lookupV_cons]) (by simp)]
    rw [hproc]
    simp [Except.bind, Except.map, build_cli_args]
  · simp only [pyTruthyTok, Bool.or_eq_true, decide_eq_true_eq]
    exact or_assoc
  · by_cases hb : pyTruthyTok s = true <;> simp [hb]

/-- Witness for C9 on the inputs "TRUE", "no" and "1". -/
theorem c9_witness :
    procOne fpU frU ⟨some "--b", some "bool", false⟩ (.str "TRUE") =
      .ok ("1", .int 1) ∧
    build_cli_args fpU frU [("b", ⟨some "--b", some "bool", false⟩)]
        [("b", Value.str "no")] =
      .ok ([some "--b", some "0"], [("b", .int 0)]) ∧
    procOne fpU frU ⟨some "--b", some "bool", false⟩ (.str "1") =
      .ok ("1", .int 1) := by
  refine ⟨?_, ?_, ?_⟩
  · have h := (c9_bool_canonical_token fpU frU "b"
      ⟨some "--b", some "bool", false⟩ "TRUE" rfl).1
    rw [h]; decide
  · have h := (c9_bool_canonical_token fpU frU "b"
      ⟨some "--b", some "bool", false⟩ "no" rfl).2.1
    rw [h]; decide
  · have h := (c9_bool_canonical_token fpU frU "b"
      ⟨some "--b", some "bool", false⟩ "1" rfl).1
    rw [h]; decide

/-! ## Claim C2: timeout handling -/

/-- C2, evaluated at the failing input (a child that outlives the timeout,
i.e. `communicate` raises `TimeoutExpired`): the attempt is classified
with ledger status 3 and stderr text "timeout" (result dict `status` =
"error", code 504), partial output is discarded (no payload, no preview,
no artifact), exactly one run-ledger row is written — but the trace
contains NO `proc.kill()` event: the `except TimeoutExpired` handler only
deletes the registry entry and never kills the child, contradicting the
claimed forcible kill (and orphaning a process that `terminate_script`
can no longer reach). -/
theorem c2_timeout_records_but_never_kills :
    execute_script fpU frU dpU deU blU cPyDir cJsDir cScript [] []
        (.spawned .timeout) 100 7 "u" "f" [] =
      (.ok (.errRes 1 100 "timeout" 504 7), [],
       [.spawn [some "python3", some "scripts_repo/python/hello.py"],
        .regAdd 1, .regDel 1, .updateLastRun 1 2,
        .insertRun 1 100 3 Option.none (some "timeout") Option.none]) ∧
    (execute_script fpU frU dpU deU blU cPyDir cJsDir cScript [] []
        (.spawned .timeout) 100 7 "u" "f" []).2.2.countP isInsertRunEv
      = 1 ∧
    (execute_script fpU frU dpU deU blU cPyDir cJsDir cScript [] []
        (.spawned .timeout) 100 7 "u" "f" []).2.2.countP isKillEv = 0 ∧
    ExecResult.statusStr (J := Unit) (.errRes 1 100 "timeout" 504 7)
      = "error" := by
  refine ⟨by decide, by decide, by decide, rfl⟩

/-! ## Claim C10: the running-process registry -/

theorem regDrop_eq_self (reg : Registry) (i : Int)
    (h : i ∉ get_running_scripts reg) : regDrop reg i = reg := by
  unfold regDrop
  rw [List.filter_eq_self]
  intro p hp
  simp only [ne_eq, decide_eq_true_eq]
  intro he
  exact h (by simpa [get_running_scripts, he] using List.mem_map_of_mem Prod.fst hp)

theorem regDrop_regSet (reg : Registry) (i : Int) (n : String) :
    regDrop (regSet reg i n) i = regDrop reg i := by
  unfold regDrop regSet
  simp [List.filter_cons, List.filter_filter, Bool.and_self]

@[simp] theorem notifyEvs_countP_regAdd (sc : Script) (t b : String)
    (i : Int) : (notifyEvs sc t b).countP (isRegAddOf i) = 0 := by
  unfold notifyEvs
  split <;> simp [isRegAddOf]

@[simp] theorem notifyEvs_countP_regDel (sc : Script) (t b : String)
    (i : Int) : (notifyEvs sc t b).countP (isRegDelOf i) = 0 := by
  unfold notifyEvs
  split <;> simp [isRegDelOf]

@[simp] theorem notifyEvs_countP_regOp (sc : Script) (t b : String)
    (i : Int) : (notifyEvs sc t b).countP (isRegOpOf i) = 0 := by
  unfold notifyEvs
  split <;> simp [isRegOpOf]

/-- C10: a single non-overlapping `_execute_script` call (the script id is
not registered when it starts) leaves `running_processes` exactly as it
found it on every terminal outcome — marshal error, spawn failure, JSON
success, binary success, non-zero exit, timeout, or internal exception —
so the id is absent when the call returns and `get_running_scripts` never
reports it afterwards. Moreover the trace inserts the id into the
registry exactly as often as it removes it, and an insertion happens only
immediately after a spawn, with the matching removal before any later
event — the registry holds the id only while the child is in flight. -/
theorem c10_registry_only_while_in_flight {F B J : Type}
    (fp : Value → Option F) (fr : F → String)
    (dp : B → Option (String × J)) (de : B → String) (bl : B → Nat)
    (pyDir jsDir : String) (sc : Script)
    (schema : List (String × ParamMeta)) (params : List (String × Value))
    (outcome : SpawnOutcome B) (durMs : Nat) (runId : Int)
    (artUrl artName : String) (reg : Registry)
    (h : sc.id ∉ get_running_scripts reg) :
    (execute_script fp fr dp de bl pyDir jsDir sc schema params outcome
        durMs runId artUrl artName reg).2.1 = reg ∧
    sc.id ∉ get_running_scripts
      (execute_script fp fr dp de bl pyDir jsDir sc schema params outcome
        durMs runId artUrl artName reg).2.1 ∧
    (execute_script fp fr dp de bl pyDir jsDir sc schema params outcome
        durMs runId artUrl artName reg).2.2.countP (isRegAddOf sc.id) =
      (execute_script fp fr dp de bl pyDir jsDir sc schema params outcome
        durMs runId artUrl artName reg).2.2.countP (isRegDelOf sc.id) ∧
    regScoped sc.id
      (execute_script fp fr dp de bl pyDir jsDir sc schema params outcome
        durMs runId artUrl artName reg).2.2 = true := by
  have hdrop : regDrop reg sc.id = reg := regDrop_eq_self reg sc.id h
  suffices hs :
      (execute_script fp fr dp de bl pyDir jsDir sc schema params outcome
        durMs runId artUrl artName reg).2.1 = reg ∧
      (execute_script fp fr dp de bl pyDir jsDir sc schema params outcome
        durMs runId artUrl artName reg).2.2.countP (isRegAddOf sc.id) =
        (execute_script fp fr dp de bl pyDir jsDir sc schema params outcome
          durMs runId artUrl artName reg).2.2.countP (isRegDelOf sc.id) ∧
      regScoped sc.id
        (execute_script fp fr dp de bl pyDir jsDir sc schema params outcome
          durMs runId artUrl artName reg).2.2 = true by
    exact ⟨hs.1, by rw [hs.1]; exact h, hs.2.1, hs.2.2⟩
  cases hM : build_cli_args fp fr schema params with
  | error e =>
    refine ⟨?_, ?_, ?_⟩ <;> simp [execute_script, hM, regScoped]
  | ok ce =>
    obtain ⟨cli, eff⟩ := ce
    cases outcome with
    | spawnFail msg =>
      refine ⟨?_, ?_, ?_⟩ <;>
        simp [execute_script, hM, hdrop, regScoped, List.countP_cons,
          List.countP_append, isRegAddOf, isRegDelOf, isRegOpOf]
    | spawned r =>
      have hdd : regDrop (regSet reg sc.id sc.filename) sc.id = reg := by
        rw [regDrop_regSet]; exact hdrop
      cases r with
      | completed out err rc =>
        by_cases hrc : rc = 0
        · cases hdp : dp out with
          | none =>
            refine ⟨?_, ?_, ?_⟩ <;>
              simp [execute_script, hM, hrc, hdp, hdd, regScoped,
                List.countP_cons, List.countP_append, isRegAddOf,
                isRegDelOf, isRegOpOf]
          | some td =>
            refine ⟨?_, ?_, ?_⟩ <;>
              simp [execute_script, hM, hrc, hdp, hdd, regScoped,
                List.countP_cons, List.countP_append, isRegAddOf,
                isRegDelOf, isRegOpOf]
        · refine ⟨?_, ?_, ?_⟩ <;>
            simp [execute_script, hM, hrc, hdd, regScoped,
              List.countP_cons, List.countP_append, isRegAddOf,
              isRegDelOf, isRegOpOf]
      | timeout =>
        refine ⟨?_, ?_, ?_⟩ <;>
          simp [execute_script, hM, hdd, regScoped, List.countP_cons,
            List.countP_append, isRegAddOf, isRegDelOf, isRegOpOf]
      | commFail msg =>
        refine ⟨?_, ?_, ?_⟩ <;>
          simp [execute_script, hM, hdd, regScoped, List.countP_cons,
            List.countP_append, isRegAddOf, isRegDelOf, isRegOpOf]

/-- Witness for C10: a binary-artifact success run starting from an empty
registry. -/
theorem c10_witness :
    (cScript.id ∉ get_running_scripts []) ∧
    ((execute_script fpU frU dpU deU blU cPyDir cJsDir cScript [] []
        (.spawned (.completed () () 0)) 5 9 "u" "f" []).2.1 = [] ∧
      cScript.id ∉ get_running_scripts
        (execute_script fpU frU dpU deU blU cPyDir cJsDir cScript [] []
          (.spawned (.completed () () 0)) 5 9 "u" "f" []).2.1 ∧
      (execute_script fpU frU dpU deU blU cPyDir cJsDir cScript [] []
        (.spawned (.completed () () 0)) 5 9 "u" "f" []).2.2.countP
          (isRegAddOf cScript.id) =
        (execute_script fpU frU dpU deU blU cPyDir cJsDir cScript [] []
          (.spawned (.completed () () 0)) 5 9 "u" "f" []).2.2.countP
            (isRegDelOf cScript.id) ∧
      regScoped cScript.id
        (execute_script fpU frU dpU deU blU cPyDir cJsDir cScript [] []
          (.spawned (.completed () () 0)) 5 9 "u" "f" []).2.2 = true) :=
  ⟨by decide,
   c10_registry_only_while_in_flight fpU frU dpU deU blU cPyDir cJsDir
     cScript [] [] (.spawned (.completed () () 0)) 5 9 "u" "f" []
     (by decide)⟩

/-! ## Claim C5: failed installs self-clean -/

theorem is_cache_valid_rmtree (fs : FS) (p : String) :
    is_cache_valid (rmtreeF fs p) p = false := by
  simp [is_cache_valid, rmtreeF, List.mem_filter]

/-- C5: whenever an install attempt actually runs (forced, or no valid
cache entry existed) and the package-manager invocation exits non-zero,
times out, or any exception is raised, the cache directory created for
the attempt has been deleted by the time the call returns: the result is
a failure and `is_cache_valid` is false on the attempt's cache path — for
both the Python and the Node.js installer. -/
theorem c5_failed_install_cleans_cache (cacheBase pyExe : String)
    (deps : List Dep) (force : Bool) (oc : InstallOutcome) (fs : FS)
    (hfail : oc.failing = true) :
    ((force = true ∨
        is_cache_valid fs
          (get_cache_path cacheBase (calculate_deps_hash deps) "python")
          = false) →
      (install_python_deps_with_cache cacheBase pyExe deps force oc
        fs).1.success = false ∧
      is_cache_valid
        (install_python_deps_with_cache cacheBase pyExe deps force oc
          fs).2.1
        (get_cache_path cacheBase (calculate_deps_hash deps) "python")
        = false) ∧
    ((force = true ∨
        is_cache_valid fs
          (get_cache_path cacheBase (calculate_deps_hash deps) "nodejs")
          = false) →
      (install_nodejs_deps_with_cache cacheBase deps force oc
        fs).1.success = false ∧
      is_cache_valid
        (install_nodejs_deps_with_cache cacheBase deps force oc fs).2.1
        (get_cache_path cacheBase (calculate_deps_hash deps) "nodejs")
        = false) := by
  constructor
  · intro hatt
    have hcond : ¬(force = false ∧
        is_cache_valid fs
          (get_cache_path cacheBase (calculate_deps_hash deps) "python")
          = true) := by
      rcases hatt with hf | hv
      · simp [hf]
      · simp [hv]
    cases oc with
    | completed rc log =>
      have hrc : ¬rc = 0 := by
        simpa [InstallOutcome.failing] using hfail
      constructor <;>
        simp [install_python_deps_with_cache, hcond, hrc,
          is_cache_valid_rmtree]
    | timeout =>
      constructor <;>
        simp [install_python_deps_with_cache, hcond, is_cache_valid_rmtree]
    | exc sp msg =>
      constructor <;>
        simp [install_python_deps_with_cache, hcond, is_cache_valid_rmtree]
  · intro hatt
    have hcond : ¬(force = false ∧
        is_cache_valid fs
          (get_cache_path cacheBase (calculate_deps_hash deps) "nodejs")
          = true) := by
      rcases hatt with hf | hv
      · simp [hf]
      · simp [hv]
    cases oc with
    | completed rc log =>
      have hrc : ¬rc = 0 := by
        simpa [InstallOutcome.failing] using hfail
      constructor <;>
        simp [install_nodejs_deps_with_cache, hcond, hrc,
          is_cache_valid_rmtree]
    | timeout =>
      constructor <;>
        simp [install_nodejs_deps_with_cache, hcond, is_cache_valid_rmtree]
    | exc sp msg =>
      constructor <;>
        simp [install_nodejs_deps_with_cache, hcond, is_cache_valid_rmtree]

/-- Witness for C5: a forced install whose pip/npm run times out, on the
empty filesystem. -/
theorem c5_witness :
    InstallOutcome.timeout.failing = true ∧
    ((install_python_deps_with_cache "cb" "py" [] true .timeout
        ⟨[]⟩).1.success = false ∧
      is_cache_valid
        (install_python_deps_with_cache "cb" "py" [] true .timeout
          ⟨[]⟩).2.1
        (get_cache_path "cb" (calculate_deps_hash []) "python") = false) ∧
    ((install_nodejs_deps_with_cache "cb" [] true .timeout
        ⟨[]⟩).1.success = false ∧
      is_cache_valid
        (install_nodejs_deps_with_cache "cb" [] true .timeout ⟨[]⟩).2.1
        (get_cache_path "cb" (calculate_deps_hash []) "nodejs") = false) :=
  ⟨rfl,
   (c5_failed_install_cleans_cache "cb" "py" [] true .timeout ⟨[]⟩ rfl).1
     (Or.inl rfl),
   (c5_failed_install_cleans_cache "cb" "py" [] true .timeout ⟨[]⟩ rfl).2
     (Or.inl rfl)⟩

/-! ## Claim C7: valid cache entries short-circuit installs -/

/-- C7: with the force flag unset and a cache directory that
`is_cache_valid` accepts, both installers return success-from-cache
immediately: the returned result is the from-cache dict, the filesystem
is untouched, and the event trace is empty — zero package-manager
invocations, for any outcome the package manager would have had. -/
theorem c7_valid_cache_zero_invocations (cacheBase pyExe : String)
    (deps : List Dep) (fs : FS) (oc oc2 : InstallOutcome) :
    (is_cache_valid fs
        (get_cache_path cacheBase (calculate_deps_hash deps) "python")
        = true →
      install_python_deps_with_cache cacheBase pyExe deps false oc fs =
        ({ success := true,
           cachePath := some
             (get_cache_path cacheBase (calculate_deps_hash deps)
               "python"),
           fromCache := some true }, fs, [])) ∧
    (is_cache_valid fs
        (get_cache_path cacheBase (calculate_deps_hash deps) "nodejs")
        = true →
      install_nodejs_deps_with_cache cacheBase deps false oc2 fs =
        ({ success := true,
           cachePath := some
             (get_cache_path cacheBase (calculate_deps_hash deps)
               "nodejs"),
           fromCache := some true }, fs, [])) := by
  constructor
  · intro hv
    simp [install_python_deps_with_cache, hv]
  · intro hv
    simp [install_nodejs_deps_with_cache, hv]

/-- Witness for C7 on a filesystem holding exactly the two cache
directories for the empty dependency set. -/
theorem c7_witness :
    (is_cache_valid
        ⟨[get_cache_path "cb" (calculate_deps_hash []) "python",
          get_cache_path "cb" (calculate_deps_hash []) "nodejs"]⟩
        (get_cache_path "cb" (calculate_deps_hash []) "python") = true) ∧
    install_python_deps_with_cache "cb" "py" [] false .timeout
        ⟨[get_cache_path "cb" (calculate_deps_hash []) "python",
          get_cache_path "cb" (calculate_deps_hash []) "nodejs"]⟩ =
      ({ success := true,
         cachePath := some
           (get_cache_path "cb" (calculate_deps_hash []) "python"),
         fromCache := some true },
       ⟨[get_cache_path "cb" (calculate_deps_hash []) "python",
         get_cache_path "cb" (calculate_deps_hash []) "nodejs"]⟩, []) ∧
    install_nodejs_deps_with_cache "cb" [] false .timeout
        ⟨[get_cache_path "cb" (calculate_deps_hash []) "python",
          get_cache_path "cb" (calculate_deps_hash []) "nodejs"]⟩ =
      ({ success := true,
         cachePath := some
           (get_cache_path "cb" (calculate_deps_hash []) "nodejs"),
         fromCache := some true },
       ⟨[get_cache_path "cb" (calculate_deps_hash []) "python",
         get_cache_path "cb" (calculate_deps_hash []) "nodejs"]⟩, []) :=
  ⟨by simp [is_cache_valid],
   (c7_valid_cache_zero_invocations "cb" "py" [] _ .timeout .timeout).1
     (by simp [is_cache_valid]),
   (c7_valid_cache_zero_invocations "cb" "py" [] _ .timeout .timeout).2
     (by simp [is_cache_valid])⟩

/-! ## Claim C6: the dependency hash and element order -/

theorem charNat_inj {x y : Char} (h : x.toNat = y.toNat) : x = y := by
  apply Char.ext
  exact UInt32.ext h

theorem listCharLe_total : ∀ a b : List Char,
    listCharLe a b = true ∨ listCharLe b a = true := by
  intro a
  induction a with
  | nil => intro b; left; rfl
  | cons x xs ih =>
    intro b
    cases b with
    | nil => right; rfl
    | cons y ys =>
      by_cases hxy : x = y
      · subst hxy
        simp only [listCharLe, if_pos rfl]
        exact ih ys
      · have hne : x.toNat ≠ y.toNat := fun hc => hxy (charNat_inj hc)
        rcases Nat.lt_or_ge x.toNat y.toNat with hlt | hge
        · left; simp [listCharLe, hxy, hlt]
        · right
          have hyx : y ≠ x := fun hc => hxy hc.symm
          have : y.toNat < x.toNat := lt_of_le_of_ne hge (Ne.symm hne)
          simp [listCharLe, hyx, this]

theorem listCharLe_trans : ∀ a b c : List Char,
    listCharLe a b = true → listCharLe b c = true →
    listCharLe a c = true := by
  intro a
  induction a with
  | nil => intro b c _ _; rfl
  | cons x xs ih =>
    intro b c hab hbc
    cases b with
    | nil => simp [listCharLe] at hab
    | cons y ys =>
      cases c with
      | nil => simp [listCharLe] at hbc
      | cons z zs =>
        by_cases hxy : x = y <;> by_cases hyz : y = z
        · subst hxy; subst hyz
          simp only [listCharLe, if_pos rfl] at hab hbc ⊢
          exact ih ys zs hab hbc
        · subst hxy
          simp only [listCharLe, if_pos rfl] at hab
          simpa [listCharLe, hyz] using hbc
        · subst hyz
          simpa [listCharLe, hxy] using hab
        · simp only [listCharLe] at hab hbc
          rw [if_neg hxy, decide_eq_true_eq] at hab
          rw [if_neg hyz, decide_eq_true_eq] at hbc
          have hlt := hab.trans hbc
          have hxz : x ≠ z := by
            intro hc
            subst hc
            exact absurd hlt (lt_irrefl _)
          simp [listCharLe, hxz, hlt]

theorem listCharLe_antisymm : ∀ a b : List Char,
    listCharLe a b = true → listCharLe b a = true → a = b := by
  intro a
  induction a with
  | nil =>
    intro b _ hba
    cases b with
    | nil => rfl
    | cons y ys => simp [listCharLe] at hba
  | cons x xs ih =>
    intro b hab hba
    cases b with
    | nil => simp [listCharLe] at hab
    | cons y ys =>
      by_cases hxy : x = y
      · subst hxy
        simp only [listCharLe, if_pos rfl] at hab hba
        rw [ih ys hab hba]
      · have hyx : y ≠ x := fun hc => hxy hc.symm
        simp only [listCharLe] at hab hba
        simp only [if_neg hxy, decide_eq_true_eq] at hab
        simp only [if_neg hyx, decide_eq_true_eq] at hba
        exact absurd (hab.trans hba) (lt_irrefl _)

instance : IsTotal Dep depNameLe :=
  ⟨fun a b => by
    unfold depNameLe
    exact listCharLe_total a.name.data b.name.data⟩

instance : IsTrans Dep depNameLe :=
  ⟨fun a b c hab hbc => by
    unfold depNameLe at hab hbc ⊢
    exact listCharLe_trans a.name.data b.name.data c.name.data hab hbc⟩

theorem depNameLe_antisymm_name {a b : Dep} (hab : depNameLe a b)
    (hba : depNameLe b a) : a.name = b.name := by
  unfold depNameLe at hab hba
  have h := listCharLe_antisymm a.name.data b.name.data hab hba
  exact String.ext h

theorem sorted_nodup_names_perm_eq :
    ∀ (l1 l2 : List Dep), l1.Perm l2 → l1.Sorted depNameLe →
      l2.Sorted depNameLe → (l1.map Dep.name).Nodup → l1 = l2 := by
  intro l1
  induction l1 with
  | nil =>
    intro l2 hp _ _ _
    exact hp.nil_eq
  | cons x t1 ih =>
    intro l2 hp hs1 hs2 hn
    cases l2 with
    | nil => exact absurd hp.eq_nil (by simp)
    | cons y t2 =>
      obtain ⟨hx1, hs1t⟩ := List.sorted_cons.mp hs1
      obtain ⟨hx2, hs2t⟩ := List.sorted_cons.mp hs2
      rw [List.map_cons, List.nodup_cons] at hn
      have hxy : x = y := by
        have hxm : x ∈ y :: t2 := hp.subset (List.mem_cons_self x t1)
        have hym : y ∈ x :: t1 := hp.symm.subset (List.mem_cons_self y t2)
        rcases List.mem_cons.mp hxm with heq | hxin
        · exact heq
        · rcases List.mem_cons.mp hym with heq | hyin
          · exact heq.symm
          · have h1 : depNameLe x y := hx1 y hyin
            have h2 : depNameLe y x := hx2 x hxin
            have hname : y.name = x.name := depNameLe_antisymm_name h2 h1
            exact absurd (hname ▸ List.mem_map_of_mem Dep.name hyin) hn.1
      subst hxy
      rw [ih t2 hp.cons_inv hs1t hs2t hn.2]

set_option maxRecDepth 100000 in
/-- C6, as universally stated, is false: the two lists
`[a==1, a==2]` and `[a==2, a==1]` contain the same (name, version) pairs
in different orders, yet `calculate_deps_hash` returns different keys —
the sort is stable and keys on the name alone, so entries sharing a name
keep their input order and serialize differently. -/
theorem c6_counterexample :
    List.Perm [Dep.mk "a" "==1", Dep.mk "a" "==2"]
      [Dep.mk "a" "==2", Dep.mk "a" "==1"] ∧
    calculate_deps_hash [Dep.mk "a" "==1", Dep.mk "a" "==2"] ≠
      calculate_deps_hash [Dep.mk "a" "==2", Dep.mk "a" "==1"] :=
  ⟨List.Perm.swap (Dep.mk "a" "==2") (Dep.mk "a" "==1") [], by decide⟩

/-- C6 (amended): for dependency lists whose package names are pairwise
distinct — every set a well-formed manifest denotes — the cache key is
independent of element order: permuted lists hash identically. The key is
a function of the dependency list alone (`calculate_deps_hash` takes no
other input), so no script identity or timestamp can reach it. Lists
carrying the same name twice with different versions may still hash
differently when reordered. -/
theorem c6_hash_order_free_for_distinct_names (l1 l2 : List Dep)
    (hp : l1.Perm l2) (hn : (l1.map Dep.name).Nodup) :
    calculate_deps_hash l1 = calculate_deps_hash l2 := by
  have hs : sortDeps l1 = sortDeps l2 := by
    apply sorted_nodup_names_perm_eq
    · exact (List.perm_insertionSort depNameLe l1).trans
        (hp.trans (List.perm_insertionSort depNameLe l2).symm)
    · exact List.sorted_insertionSort depNameLe l1
    · exact List.sorted_insertionSort depNameLe l2
    · exact (((List.perm_insertionSort depNameLe l1).map
        Dep.name).nodup_iff).mpr hn
  unfold calculate_deps_hash sortDeps
  unfold sortDeps at hs
  rw [hs]

/-- Witness for C6 (amended): two distinct-name lists in swapped order. -/
theorem c6_witness :
    List.Perm [Dep.mk "b" "==3", Dep.mk "a" "==1"]
      [Dep.mk "a" "==1", Dep.mk "b" "==3"] ∧
    ([Dep.mk "b" "==3", Dep.mk "a" "==1"].map Dep.name).Nodup ∧
    calculate_deps_hash [Dep.mk "b" "==3", Dep.mk "a" "==1"] =
      calculate_deps_hash [Dep.mk "a" "==1", Dep.mk "b" "==3"] :=
  ⟨List.Perm.swap (Dep.mk "a" "==1") (Dep.mk "b" "==3") [], by decide,
   c6_hash_order_free_for_distinct_names _ _
     (List.Perm.swap (Dep.mk "a" "==1") (Dep.mk "b" "==3") [])
     (by decide)⟩

/-! ## Claim C8: content hash and re-discovery -/

set_option maxRecDepth 200000 in
/-- C8, as stated, is false: `parse_and_register` takes no record of any
previous scan, so a rescan of an unchanged file is this very same call.
Its trace records exactly the current content's MD5 in the catalog row —
i.e. the stored hash equals the rescanned file's hash — and nevertheless
contains the discovery-subprocess spawn: discovery is not skipped when
the hash is unchanged. -/
theorem c8_counterexample :
    ScanEv.upsert "hello.py" "python" (md5Hex c8Content) 1 Option.none
        (some "\x7b\x7d") ∈ c8Evs ∧
    ScanEv.runSchema ["python3", c8Path, "--_sys_get_schema"] ∈ c8Evs :=
  ⟨by decide, by decide⟩

/-- C8 (amended): for every file the scan step accepts (supported
extension, entry-point marker present), every call of
`parse_and_register` — first scan or rescan of an unchanged file alike —
spawns the discovery subprocess; the MD5 content hash is computed and
stored but never compared against the previously recorded one. -/
theorem c8_discovery_always_runs (pyDir jsDir path content : String)
    (disc : DiscOutcome) (jparse : String → Except String String)
    (stype : String) (hty : detect_script_type path = some stype)
    (hep : has_entrypoint content stype = true) :
    ScanEv.runSchema
        (if stype = "python" then ["python3", path, "--_sys_get_schema"]
         else ["node", path, "--_sys_get_schema"]) ∈
      parse_and_register pyDir jsDir path content disc jparse := by
  unfold parse_and_register
  rw [hty]
  simp only [hep, not_true_eq_false, if_false, Bool.not_true]
  cases disc with
  | fail err => simp
  | ok text =>
    cases hj : jparse text with
    | ok canon => simp [hj]
    | error e => simp [hj]

/-- Witness for C8 (amended) at the concrete scan input. -/
theorem c8_witness :
    detect_script_type c8Path = some "python" ∧
    has_entrypoint c8Content "python" = true ∧
    ScanEv.runSchema
        (if "python" = "python"
         then ["python3", c8Path, "--_sys_get_schema"]
         else ["node", c8Path, "--_sys_get_schema"]) ∈
      parse_and_register cPyDir cJsDir c8Path c8Content (.ok "\x7b\x7d")
        (fun s => .ok s) :=
  ⟨by decide, by decide,
   c8_discovery_always_runs cPyDir cJsDir c8Path c8Content
     (.ok "\x7b\x7d") (fun s => .ok s) "python" (by decide) (by decide)⟩

end ScriptGateway
